import Mathlib

set_option maxRecDepth 100000

/-!
Shallow embedding of src/download_geohot_blogs.py.

Python strings are modelled as Lean String values, and the Python string and
library operations the script uses (str.startswith, str.endswith, str.strip,
str.replace, str slicing, re.sub over a character class, re.search for the
date pattern, urllib.parse.urljoin, urllib.parse.urlparse) are modelled over
the underlying character lists.  Network, filesystem and renderer effects are
modelled explicitly: the fetched page is an input, the filesystem is a list of
existing paths, and the renderer outcome is an oracle parameter.
-/

namespace Blogs

/-- Python str.startswith: the characters of pre are a prefix of s. -/
def startswith (s pre : String) : Bool :=
  List.isPrefixOf pre.toList s.toList

/-- Python str.endswith: the characters of suf are a suffix of s. -/
def endswith (s suf : String) : Bool :=
  List.isSuffixOf suf.toList s.toList

/-- Python whitespace characters (ASCII range, as used by str.strip and
str.isspace on the inputs in scope). -/
def isPySpace (c : Char) : Bool :=
  c = ' ' || c = '\t' || c = '\n' || c = '\x0b' || c = '\x0c' || c = '\r'

/-- Python str.strip with no argument: drop leading and trailing whitespace. -/
def pyStripList (l : List Char) : List Char :=
  ((l.dropWhile isPySpace).reverse.dropWhile isPySpace).reverse

/-- Python str.strip with no argument, on strings. -/
def pyStrip (s : String) : String :=
  String.mk (pyStripList s.toList)

/-- Python str.strip with a single-character argument: drop that character
from both ends. -/
def pyStripChar (c : Char) (l : List Char) : List Char :=
  ((l.dropWhile (fun d => d = c)).reverse.dropWhile (fun d => d = c)).reverse

/-- Python str.isspace: nonempty and every character is whitespace. -/
def pyIsSpace (s : String) : Bool :=
  !s.toList.isEmpty && s.toList.all isPySpace

/-- Split a character list on a separator character, Python str.split style:
splitting "a/b/" on the slash gives ["a", "b", ""]. -/
def splitChar (sep : Char) : List Char → List (List Char)
  | [] => [[]]
  | c :: cs =>
    match splitChar sep cs with
    | [] => [[]]
    | g :: gs => if c = sep then [] :: g :: gs else (c :: g) :: gs

/-- Join character-list groups with a separator character. -/
def joinChar (sep : Char) (l : List (List Char)) : List Char :=
  List.intercalate [sep] l

/-- Helper for scheme detection: after the first character, a scheme is a run
of scheme characters ended by a colon. -/
def isSchemeChar (c : Char) : Bool :=
  c.isAlpha || c.isDigit || c = '+' || c = '-' || c = '.'

/-- Helper for scheme detection, scanning the tail for the closing colon. -/
def schemeTail : List Char → Bool
  | [] => false
  | ':' :: _ => true
  | c :: rest => isSchemeChar c && schemeTail rest

/-- URL has an explicit scheme: a letter followed by scheme characters then a
colon, as recognised by urllib.parse. -/
def hasScheme : List Char → Bool
  | [] => false
  | c :: rest => c.isAlpha && schemeTail rest

/-- Characters of a URL after the first scheme separator "://", if any. -/
def afterSchemeSep : List Char → Option (List Char)
  | ':' :: '/' :: '/' :: rest => some rest
  | _ :: rest => afterSchemeSep rest
  | [] => none

/-- Modelled from urllib.parse.urljoin (Python standard library), restricted
to the shapes the script produces: an absolute target with a scheme is kept
as is; a scheme-relative target (two leading slashes) takes the scheme of the
base; a host-absolute target (one leading slash) takes scheme and host of the
base; any other target replaces the last path segment of the base.  Dot
segment normalisation is not modelled. -/
def urljoin (base url : String) : String :=
  if hasScheme url.toList then url
  else if startswith url "//" then
    String.mk (base.toList.takeWhile (fun c => c ≠ ':') ++ [':']) ++ url
  else if startswith url "/" then
    String.mk (joinChar '/' ((splitChar '/' base.toList).take 3)) ++ url
  else
    String.mk (joinChar '/' ((splitChar '/' base.toList).dropLast) ++ ['/']) ++ url

/-- Modelled from urllib.parse.urlparse(url).path, restricted to URLs of the
form scheme://host/path with optional query or fragment: the path is the part
from the first slash after the host up to the first question mark or hash. -/
def urlparse_path (url : String) : String :=
  match afterSchemeSep url.toList with
  | none => String.mk (url.toList.takeWhile (fun c => c ≠ '?' && c ≠ '#'))
  | some rest =>
    String.mk ((rest.dropWhile (fun c => c ≠ '/' && c ≠ '?' && c ≠ '#')).takeWhile
      (fun c => c ≠ '?' && c ≠ '#'))

/-- Strict lexicographic comparison of character lists by code point, the
order Python uses to compare strings. -/
def lexLt : List Char → List Char → Bool
  | _, [] => false
  | [], _ :: _ => true
  | a :: as, b :: bs => if a < b then true else if b < a then false else lexLt as bs

/-- Python string comparison, strict. -/
def pyLt (s t : String) : Bool :=
  lexLt s.toList t.toList

/-- Insert a string into a strictly sorted list, dropping it when already
present. -/
def insertSorted (s : String) : List String → List String
  | [] => [s]
  | x :: xs =>
    if pyLt s x then s :: x :: xs
    else if s = x then x :: xs
    else x :: insertSorted s xs

/-- Model of Python sorted(list(set(l))): the strictly increasing enumeration
of the elements of l. -/
def sortDedup (l : List String) : List String :=
  l.foldr insertSorted []

/-- Characters removed by sanitize_filename, the regex class [<>:"/\\|?*]. -/
def invalid_char (c : Char) : Bool :=
  List.contains ['<', '>', ':', '"', '/', '\\', '|', '?', '*'] c

/-- Embedding of sanitize_filename (src/download_geohot_blogs.py lines
23-31): remove the invalid characters, replace spaces with underscores, then
truncate to 200 characters. -/
def sanitize_filename (title : String) : String :=
  let filename := title.toList.filter (fun c => ! invalid_char c)
  let filename := filename.map (fun c => if c = ' ' then '_' else c)
  String.mk (filename.take 200)

/-- Skip test of get_blog_posts (line 48): drop an anchor target that is
empty, fragment-only, absolute to any host, or the root path. -/
def skip_link (href : String) : Bool :=
  href = "" || startswith href "#" || startswith href "http" || href = "/"

/-- Keep test of get_blog_posts (lines 56-58): keep a resolved URL that
starts with the base URL, differs from it, and ends with ".html". -/
def keep_link (base_url full_url : String) : Bool :=
  startswith full_url base_url && full_url ≠ base_url && endswith full_url ".html"

/-- Links collected by the loop of get_blog_posts (lines 44-59), in page
order, duplicates included. -/
def collect_links (base_url : String) (hrefs : List String) : List String :=
  hrefs.filterMap (fun href =>
    if skip_link href then none
    else
      let full_url := urljoin base_url href
      if keep_link base_url full_url then some full_url else none)

/-- Embedding of get_blog_posts (lines 34-71).  The fetched index page is
modelled by the list of its anchor target attributes in document order; the
final sorted(list(set(links))) is modelled by sortDedup. -/
def get_blog_posts (base_url : String) (hrefs : List String) : List String :=
  sortDedup (collect_links base_url hrefs)

/-- Model of the parsed document: the text content of the first h1, title,
h2 and h3 elements, when present.  BeautifulSoup find returns the first
matching element or None; get_text() is the stored text. -/
structure Soup where
  h1 : Option String
  title : Option String
  h2 : Option String
  h3 : Option String
deriving DecidableEq

/-- Embedding of get_blog_title (lines 74-91): first h1 text, else title
text, else first h2, else first h3, each stripped; else "untitled". -/
def get_blog_title (soup : Soup) : String :=
  match soup.h1 with
  | some t => pyStrip t
  | none =>
    match soup.title with
    | some t => pyStrip t
    | none =>
      match soup.h2 with
      | some t => pyStrip t
      | none =>
        match soup.h3 with
        | some t => pyStrip t
        | none => "untitled"

/-- Date segment match at the head of the character list: slash, four
digits, slash, two digits, slash, two digits, slash, giving "YYYY-MM-DD". -/
def matchDate : List Char → Option String
  | a :: y1 :: y2 :: y3 :: y4 :: b :: m1 :: m2 :: c :: d1 :: d2 :: d :: _ =>
    if a = '/' && b = '/' && c = '/' && d = '/' &&
        [y1, y2, y3, y4, m1, m2, d1, d2].all Char.isDigit then
      some (String.mk [y1, y2, y3, y4, '-', m1, m2, '-', d1, d2])
    else none
  | _ => none

/-- Leftmost date segment match, as re.search scans left to right. -/
def searchDate : List Char → Option String
  | [] => none
  | c :: rest =>
    match matchDate (c :: rest) with
    | some s => some s
    | none => searchDate rest

/-- Embedding of extract_date_from_url (lines 124-133): search the URL for a
/YYYY/MM/DD/ segment and return "YYYY-MM-DD" when found. -/
def extract_date_from_url (url : String) : Option String :=
  searchDate url.toList

/-- Filename derivation of download_and_convert_to_pdf before the date
prefixing step (lines 148-156): sanitized title, else the URL path with
slashes replaced by underscores and underscores stripped from both ends,
else "blog_post". -/
def filename_no_date (title url : String) : String :=
  let filename := sanitize_filename title
  if filename = "" || pyIsSpace filename then
    let fromPath := pyStripChar '_'
      ((urlparse_path url).toList.map (fun c => if c = '/' then '_' else c))
    if fromPath.isEmpty then "blog_post" else String.mk fromPath
  else filename

/-- Full filename derivation of download_and_convert_to_pdf (lines 148-161):
the date from the URL, when present, is prepended as "YYYY-MM-DD_". -/
def derive_filename (title url : String) : String :=
  match extract_date_from_url url with
  | some date => date ++ "_" ++ filename_no_date title url
  | none => filename_no_date title url

/-- Outcome strings returned by download_and_convert_to_pdf: success,
existing, error. -/
inductive ConvResult
  | success
  | existing
  | error
deriving DecidableEq

/-- Content of a file written to the output directory: a PDF rendered from a
markup string, or a raw HTML backup. -/
inductive FileContent
  | pdf : String → FileContent
  | html : String → FileContent
deriving DecidableEq

/-- Observable effects of one call to download_and_convert_to_pdf: the
returned outcome, the files written (path and content), the failure records
appended to failed_urls, and whether the renderer was invoked. -/
structure ConvEffects where
  result : ConvResult
  written : List (String × FileContent)
  failures : List (String × String)
  rendered : Bool
deriving DecidableEq

/-- Environment oracle for one call to download_and_convert_to_pdf: whether
the weasyprint import succeeded, whether write_pdf succeeds, the message of
the rendering error when it fails, whether the backup write succeeds, and
the serialization str(clean_html_for_pdf(soup)) handed to the renderer. -/
structure ConvEnv where
  weasyprint_available : Bool
  render_ok : Bool
  render_err : String
  backup_ok : Bool
  cleaned_html : String
deriving DecidableEq

/-- The PDF path computed by download_and_convert_to_pdf (line 163). -/
def conv_pdf_path (output_dir url : String) (soup : Soup) : String :=
  output_dir ++ "/" ++ derive_filename (get_blog_title soup) url ++ ".pdf"

/-- The HTML backup path computed by download_and_convert_to_pdf (line
197). -/
def conv_html_path (output_dir url : String) (soup : Soup) : String :=
  output_dir ++ "/" ++ derive_filename (get_blog_title soup) url ++ ".html"

/-- Embedding of download_and_convert_to_pdf (lines 136-205) after the
fetch: the fetched page is response_text with parsed form soup, fs is the
set of paths existing in the output directory, and env resolves the
renderer and backup outcomes.  Returns the observable effects. -/
def download_and_convert_to_pdf (env : ConvEnv) (url output_dir : String) (soup : Soup)
    (response_text : String) (fs : List String) : ConvEffects :=
  if conv_pdf_path output_dir url soup ∈ fs then
    ⟨ConvResult.existing, [], [], false⟩
  else if ! env.weasyprint_available then
    ⟨ConvResult.error, [], [(url, "weasyprint not installed")], false⟩
  else if env.render_ok then
    ⟨ConvResult.success, [(conv_pdf_path output_dir url soup, FileContent.pdf env.cleaned_html)],
      [], true⟩
  else
    ⟨ConvResult.error,
      if env.backup_ok then
        [(conv_html_path output_dir url soup, FileContent.html response_text)]
      else [],
      [(url, env.render_err)], true⟩

/-- One iteration of the loop of main (lines 237-254), seen from the
orchestrator: the call to download_and_convert_to_pdf either returned with
its observable effects or raised an exception with a message. -/
inductive PostStep
  | raised : String → PostStep
  | returned : ConvEffects → PostStep
deriving DecidableEq

/-- Tally of main (lines 231-235): counters and the failure list. -/
structure Tally where
  new_count : Nat
  existing_count : Nat
  error_count : Nat
  failed_urls : List (String × String)
deriving DecidableEq

/-- Initial tally of main (lines 232-235). -/
def init_tally : Tally :=
  ⟨0, 0, 0, []⟩

/-- Embedding of one iteration of the loop of main (lines 237-254): a raise
is caught, counted as an error and recorded; a return first lands the
failure records appended during the call, then bumps the counter matching
the outcome. -/
def main_step (t : Tally) (item : String × PostStep) : Tally :=
  match item.2 with
  | PostStep.raised msg =>
    { t with error_count := t.error_count + 1,
             failed_urls := t.failed_urls ++ [(item.1, msg)] }
  | PostStep.returned eff =>
    let t' := { t with failed_urls := t.failed_urls ++ eff.failures }
    match eff.result with
    | ConvResult.success => { t' with new_count := t'.new_count + 1 }
    | ConvResult.existing => { t' with existing_count := t'.existing_count + 1 }
    | ConvResult.error => { t' with error_count := t'.error_count + 1 }

/-- Embedding of the loop of main over the discovered URLs, from the fresh
tally. -/
def main_loop (items : List (String × PostStep)) : Tally :=
  items.foldl main_step init_tally

/-- Contribution of one loop iteration to new_count. -/
def itemNew : String × PostStep → Nat
  | (_, PostStep.raised _) => 0
  | (_, PostStep.returned eff) =>
    match eff.result with
    | ConvResult.success => 1
    | _ => 0

/-- Contribution of one loop iteration to existing_count. -/
def itemExisting : String × PostStep → Nat
  | (_, PostStep.raised _) => 0
  | (_, PostStep.returned eff) =>
    match eff.result with
    | ConvResult.existing => 1
    | _ => 0

/-- Contribution of one loop iteration to error_count. -/
def itemErr : String × PostStep → Nat
  | (_, PostStep.raised _) => 1
  | (_, PostStep.returned eff) =>
    match eff.result with
    | ConvResult.error => 1
    | _ => 0

/-- Failure records appended during one loop iteration. -/
def itemFailures : String × PostStep → List (String × String)
  | (url, PostStep.raised msg) => [(url, msg)]
  | (_, PostStep.returned eff) => eff.failures

/-- Strings with equal character lists are equal. -/
theorem string_toList_inj {s t : String} (h : s.toList = t.toList) : s = t :=
  congrArg String.mk h

/-- Comparison with the empty list on the right is false. -/
theorem lexLt_nil_right (x : List Char) : lexLt x [] = false := by
  cases x <;> rfl

/-- Unfolding of lexLt on two cons cells. -/
theorem lexLt_cons_cons (a b : Char) (as bs : List Char) :
    lexLt (a :: as) (b :: bs)
      = if a < b then true else if b < a then false else lexLt as bs := rfl

/-- The comparison is irreflexive. -/
theorem lexLt_irrefl (x : List Char) : lexLt x x = false := by
  induction x with
  | nil => rfl
  | cons a as ih => rw [lexLt_cons_cons, if_neg (lt_irrefl a), if_neg (lt_irrefl a), ih]

/-- The comparison is transitive. -/
theorem lexLt_trans {x y z : List Char} (hxy : lexLt x y = true) (hyz : lexLt y z = true) :
    lexLt x z = true := by
  induction x generalizing y z with
  | nil =>
    cases z with
    | nil => rw [lexLt_nil_right] at hyz; simp at hyz
    | cons c cs => rfl
  | cons a as ih =>
    cases y with
    | nil => rw [lexLt_nil_right] at hxy; simp at hxy
    | cons b bs =>
      cases z with
      | nil => rw [lexLt_nil_right] at hyz; simp at hyz
      | cons c cs =>
        rw [lexLt_cons_cons] at hxy hyz ⊢
        by_cases hab : a < b
        · by_cases hbc : b < c
          · rw [if_pos (lt_trans hab hbc)]
          · by_cases hcb : c < b
            · rw [if_neg hbc, if_pos hcb] at hyz; simp at hyz
            · have hbc' : b = c := le_antisymm (le_of_not_lt hcb) (le_of_not_lt hbc)
              rw [if_pos (hbc' ▸ hab)]
        · by_cases hba : b < a
          · rw [if_neg hab, if_pos hba] at hxy; simp at hxy
          · have hab' : a = b := le_antisymm (le_of_not_lt hba) (le_of_not_lt hab)
            subst hab'
            rw [if_neg hab, if_neg hba] at hxy
            by_cases hac : a < c
            · rw [if_pos hac]
            · by_cases hca : c < a
              · rw [if_neg hac, if_pos hca] at hyz; simp at hyz
              · have hac' : a = c := le_antisymm (le_of_not_lt hca) (le_of_not_lt hac)
                subst hac'
                rw [if_neg hac, if_neg hca] at hyz ⊢
                exact ih hxy hyz

/-- Two lists that compare false both ways are equal. -/
theorem lexLt_connex : ∀ {x y : List Char},
    lexLt x y = false → lexLt y x = false → x = y := by
  intro x
  induction x with
  | nil =>
    intro y h1 _
    cases y with
    | nil => rfl
    | cons b bs => simp [lexLt] at h1
  | cons a as ih =>
    intro y h1 h2
    cases y with
    | nil => simp [lexLt] at h2
    | cons b bs =>
      rw [lexLt_cons_cons] at h1 h2
      by_cases hab : a < b
      · rw [if_pos hab] at h1; simp at h1
      · by_cases hba : b < a
        · rw [if_pos hba] at h2; simp at h2
        · have hab' : a = b := le_antisymm (le_of_not_lt hba) (le_of_not_lt hab)
          subst hab'
          rw [if_neg hab, if_neg hba] at h1 h2
          rw [ih h1 h2]

/-- The boolean comparison agrees with the lexicographic order relation on
character lists. -/
theorem lexLt_iff_lex : ∀ {x y : List Char},
    lexLt x y = true ↔ List.Lex (· < ·) x y := by
  intro x
  induction x with
  | nil =>
    intro y
    cases y with
    | nil =>
      constructor
      · intro h; simp [lexLt] at h
      · intro h; cases h
    | cons b bs => simp [lexLt]; exact List.Lex.nil
  | cons a as ih =>
    intro y
    cases y with
    | nil =>
      rw [lexLt_nil_right]
      constructor
      · intro h; simp at h
      · intro h; cases h
    | cons b bs =>
      rw [lexLt_cons_cons]
      by_cases hab : a < b
      · rw [if_pos hab]
        constructor
        · intro _; exact List.Lex.rel hab
        · intro _; rfl
      · by_cases hba : b < a
        · rw [if_neg hab, if_pos hba]
          constructor
          · intro h; simp at h
          · intro h
            cases h with
            | cons h' => exact absurd hba (lt_irrefl a)
            | rel h' => exact absurd h' hab
        · have hab' : a = b := le_antisymm (le_of_not_lt hba) (le_of_not_lt hab)
          subst hab'
          rw [if_neg hab, if_neg hba]
          constructor
          · intro h; exact List.Lex.cons (ih.mp h)
          · intro h
            cases h with
            | cons h' => exact ih.mpr h'
            | rel h' => exact absurd h' hab

/-- Transitivity for the string comparison. -/
theorem pyLt_trans {x y z : String} (h1 : pyLt x y = true) (h2 : pyLt y z = true) :
    pyLt x z = true :=
  lexLt_trans h1 h2

/-- Irreflexivity for the string comparison. -/
theorem pyLt_irrefl (s : String) : pyLt s s = false :=
  lexLt_irrefl s.toList

/-- Strings that compare false both ways are equal. -/
theorem pyLt_connex {s t : String} (h1 : pyLt s t = false) (h2 : pyLt t s = false) : s = t :=
  string_toList_inj (lexLt_connex h1 h2)

/-- Strictly smaller strings are different. -/
theorem pyLt_ne {s t : String} (h : pyLt s t = true) : s ≠ t := by
  intro he
  subst he
  rw [pyLt_irrefl] at h
  simp at h

/-- Membership after an insertion. -/
theorem mem_insertSorted (y s : String) (l : List String) :
    y ∈ insertSorted s l ↔ y = s ∨ y ∈ l := by
  induction l with
  | nil => simp [insertSorted]
  | cons x xs ih =>
    by_cases h1 : pyLt s x = true
    · simp [insertSorted, h1]
    · by_cases h2 : s = x
      · subst h2
        simp [insertSorted, h1]
      · have hu : insertSorted s (x :: xs) = x :: insertSorted s xs := by
          simp only [insertSorted]
          rw [if_neg h1, if_neg h2]
        rw [hu]
        simp only [List.mem_cons, ih]
        tauto

/-- Insertion preserves strict sortedness. -/
theorem pairwise_insertSorted (s : String) (l : List String)
    (h : l.Pairwise (fun a b => pyLt a b = true)) :
    (insertSorted s l).Pairwise (fun a b => pyLt a b = true) := by
  induction l with
  | nil => simp [insertSorted]
  | cons x xs ih =>
    rw [List.pairwise_cons] at h
    obtain ⟨hx, hxs⟩ := h
    by_cases h1 : pyLt s x = true
    · rw [insertSorted, if_pos h1]
      refine List.Pairwise.cons ?_ (List.Pairwise.cons hx hxs)
      intro y hy
      rcases List.mem_cons.mp hy with rfl | hy'
      · exact h1
      · exact pyLt_trans h1 (hx y hy')
    · by_cases h2 : s = x
      · rw [insertSorted, if_neg h1, if_pos h2]
        exact List.Pairwise.cons hx hxs
      · rw [insertSorted, if_neg h1, if_neg h2]
        refine List.Pairwise.cons ?_ (ih hxs)
        intro y hy
        rcases (mem_insertSorted y s xs).mp hy with rfl | hy'
        · cases hxy : pyLt x y with
          | true => rfl
          | false =>
            have h1' : pyLt y x = false := by
              cases hyx : pyLt y x with
              | false => rfl
              | true => exact absurd hyx h1
            exact absurd (pyLt_connex h1' hxy) h2
        · exact hx y hy'

/-- The model of sorted(list(set(l))) has the same members as l. -/
theorem mem_sortDedup (y : String) (l : List String) :
    y ∈ sortDedup l ↔ y ∈ l := by
  induction l with
  | nil => simp [sortDedup]
  | cons x xs ih =>
    have hstep : sortDedup (x :: xs) = insertSorted x (sortDedup xs) := rfl
    rw [hstep, mem_insertSorted, ih, List.mem_cons]

/-- The model of sorted(list(set(l))) is strictly sorted. -/
theorem pairwise_sortDedup (l : List String) :
    (sortDedup l).Pairwise (fun a b => pyLt a b = true) := by
  induction l with
  | nil => simp [sortDedup]
  | cons x xs ih => exact pairwise_insertSorted x _ ih

/-- The model of sorted(list(set(l))) has no duplicates. -/
theorem nodup_sortDedup (l : List String) : (sortDedup l).Nodup :=
  (pairwise_sortDedup l).imp (fun h => pyLt_ne h)

/-- A URL is collected by the loop of get_blog_posts exactly when some anchor
target of the page passes the skip test, resolves to it, and the resolved URL
passes the keep test. -/
theorem mem_collect_links (base_url : String) (hrefs : List String) (u : String) :
    u ∈ collect_links base_url hrefs ↔
      ∃ href, href ∈ hrefs ∧ skip_link href = false ∧ urljoin base_url href = u ∧
        keep_link base_url u = true := by
  unfold collect_links
  rw [List.mem_filterMap]
  constructor
  · rintro ⟨href, hmem, hf⟩
    by_cases hs : skip_link href = true
    · simp [hs] at hf
    · by_cases hk : keep_link base_url (urljoin base_url href) = true
      · rw [if_neg hs, if_pos hk] at hf
        simp only [Option.some.injEq] at hf
        refine ⟨href, hmem, by simpa using hs, hf, ?_⟩
        rw [← hf]
        exact hk
      · rw [if_neg hs, if_neg hk] at hf
        simp at hf
  · rintro ⟨href, hmem, hs, hu, hk⟩
    refine ⟨href, hmem, ?_⟩
    rw [if_neg (by simp [hs]), hu, if_pos hk]

/-- Failure records appended by one converter call: exactly one on the error
outcome, none otherwise. -/
theorem conv_failures_length (env : ConvEnv) (url output_dir : String) (soup : Soup)
    (response_text : String) (fs : List String) :
    (download_and_convert_to_pdf env url output_dir soup response_text fs).failures.length
      = (if (download_and_convert_to_pdf env url output_dir soup response_text fs).result
            = ConvResult.error then 1 else 0) := by
  unfold download_and_convert_to_pdf
  by_cases h1 : conv_pdf_path output_dir url soup ∈ fs
  · simp [h1]
  · by_cases h2 : env.weasyprint_available = true <;>
      by_cases h3 : env.render_ok = true <;>
        simp [h1, h2, h3]

/-- Closed form of the loop of main from an arbitrary starting tally: each
counter is the start value plus the per-iteration contributions, and the
failure list is the start list followed by the per-iteration records. -/
theorem main_loop_char (items : List (String × PostStep)) (t : Tally) :
    items.foldl main_step t =
      ⟨t.new_count + (items.map itemNew).sum,
       t.existing_count + (items.map itemExisting).sum,
       t.error_count + (items.map itemErr).sum,
       t.failed_urls ++ (items.map itemFailures).flatten⟩ := by
  induction items generalizing t with
  | nil =>
    cases t
    simp
  | cons i is ih =>
    rw [List.foldl_cons, ih]
    obtain ⟨url, step⟩ := i
    cases step with
    | raised msg =>
      simp only [main_step, itemNew, itemExisting, itemErr, itemFailures,
        List.map_cons, List.sum_cons, List.flatten_cons, Tally.mk.injEq]
      refine ⟨by omega, by omega, by omega, by simp⟩
    | returned eff =>
      cases heff : eff.result <;>
        · simp only [main_step, heff, itemNew, itemExisting, itemErr, itemFailures,
            List.map_cons, List.sum_cons, List.flatten_cons, Tally.mk.injEq]
          refine ⟨by omega, by omega, by omega, by simp⟩

/-- Every loop iteration bumps exactly one of the three counters. -/
theorem item_counts_one (i : String × PostStep) :
    itemNew i + itemExisting i + itemErr i = 1 := by
  obtain ⟨u, s⟩ := i
  cases s with
  | raised msg => rfl
  | returned eff =>
    cases heff : eff.result <;> simp [itemNew, itemExisting, itemErr, heff]

/-- The three counter contributions over a run sum to the number of URLs. -/
theorem sum_counts (items : List (String × PostStep)) :
    (items.map itemNew).sum + (items.map itemExisting).sum + (items.map itemErr).sum
      = items.length := by
  induction items with
  | nil => rfl
  | cons i is ih =>
    simp only [List.map_cons, List.sum_cons, List.length_cons]
    have := item_counts_one i
    omega

/-- A converter return contributes to error_count exactly the number of
failure records it appended. -/
theorem conv_item_err (url : String) (eff : ConvEffects)
    (h : ∃ env output_dir soup response_text fs,
      eff = download_and_convert_to_pdf env url output_dir soup response_text fs) :
    itemErr (url, PostStep.returned eff)
      = (itemFailures (url, PostStep.returned eff)).length := by
  obtain ⟨env, output_dir, soup, response_text, fs, rfl⟩ := h
  have hlen := conv_failures_length env url output_dir soup response_text fs
  simp only [itemErr, itemFailures]
  cases hres : (download_and_convert_to_pdf env url output_dir soup response_text fs).result <;>
    simp [hres] at hlen <;> simp [hlen]

/-- C1: Link Discovery on the page with anchor targets
["#x", "https://ext/a.html", "/", "/blog/p1.html", "/blog/p1.html", "/blog/p2.txt"]
against base URL "https://site/blog/" returns exactly
["https://site/blog/p1.html"]; in general a URL is in the result exactly
when some anchor target passes the skip test (not empty, not a fragment,
not absolute, not the root path), resolves to it, and the resolved URL
starts with the base URL, differs from it, and ends with ".html". -/
theorem c1_link_discovery :
    get_blog_posts "https://site/blog/"
        ["#x", "https://ext/a.html", "/", "/blog/p1.html", "/blog/p1.html", "/blog/p2.txt"]
      = ["https://site/blog/p1.html"] ∧
    ∀ base_url hrefs u, u ∈ get_blog_posts base_url hrefs ↔
      ∃ href, href ∈ hrefs ∧ skip_link href = false ∧ urljoin base_url href = u ∧
        keep_link base_url u = true := by
  refine ⟨by decide, fun base_url hrefs u => ?_⟩
  rw [get_blog_posts, mem_sortDedup]
  exact mem_collect_links base_url hrefs u

/-- C1 witness: the membership characterization applied at the concrete
page, producing the one discovered post URL. -/
theorem c1_link_discovery_witness :
    "https://site/blog/p1.html" ∈ get_blog_posts "https://site/blog/"
      ["#x", "https://ext/a.html", "/", "/blog/p1.html", "/blog/p1.html", "/blog/p2.txt"] :=
  (c1_link_discovery.2 "https://site/blog/"
      ["#x", "https://ext/a.html", "/", "/blog/p1.html", "/blog/p1.html", "/blog/p2.txt"]
      "https://site/blog/p1.html").mpr
    ⟨"/blog/p1.html", by decide, by decide, by decide, by decide⟩

/-- C4: sanitize_filename removes every character of the forbidden set,
replaces spaces with underscores, truncates to 200 characters, and maps
"A/B: Test?" to "AB_Test". -/
theorem c4_sanitize :
    sanitize_filename "A/B: Test?" = "AB_Test" ∧
    ∀ title : String, (sanitize_filename title).length ≤ 200 ∧
      ∀ c, c ∈ (sanitize_filename title).toList → invalid_char c = false ∧ c ≠ ' ' := by
  refine ⟨by decide, fun title => ⟨?_, ?_⟩⟩
  · have hlen : (sanitize_filename title).length
        = (((title.toList.filter fun c => ! invalid_char c).map
            fun c => if c = ' ' then '_' else c).take 200).length := rfl
    rw [hlen, List.length_take]
    omega
  · intro c hc
    have hc0 : c ∈ ((title.toList.filter fun c => ! invalid_char c).map
        fun c => if c = ' ' then '_' else c).take 200 := hc
    have hc1 := List.take_subset _ _ hc0
    rw [List.mem_map] at hc1
    obtain ⟨a, ha, rfl⟩ := hc1
    rw [List.mem_filter] at ha
    have hval : invalid_char a = false := by simpa using ha.2
    by_cases hsp : a = ' '
    · subst hsp
      rw [if_pos rfl]
      exact ⟨by decide, by decide⟩
    · rw [if_neg hsp]
      exact ⟨hval, hsp⟩

/-- C4 witness: the length bound and the character conditions applied at a
concrete title. -/
theorem c4_sanitize_witness :
    (sanitize_filename "A b").length ≤ 200 ∧ invalid_char '_' = false ∧ '_' ≠ ' ' :=
  ⟨(c4_sanitize.2 "A b").1, (c4_sanitize.2 "A b").2 '_' (by decide)⟩

/-- C5: extract_date_from_url finds the slash-delimited /YYYY/MM/DD/
segment when present and yields none otherwise; when a date is found the
filename is prefixed with it and an underscore, and otherwise no prefix is
added. -/
theorem c5_date_prefixing :
    extract_date_from_url "https://geohot.github.io/blog/jekyll/update/2024/03/07/my-post.html"
        = some "2024-03-07" ∧
    extract_date_from_url "https://geohot.github.io/blog/posts/my-post.html" = none ∧
    derive_filename "My Post" "https://site/2024/03/07/my-post.html" = "2024-03-07_My_Post" ∧
    ∀ title url date,
      (extract_date_from_url url = some date →
        derive_filename title url = date ++ "_" ++ filename_no_date title url) ∧
      (extract_date_from_url url = none →
        derive_filename title url = filename_no_date title url) := by
  refine ⟨by decide, by decide, by decide, fun title url date => ⟨?_, ?_⟩⟩
  · intro h
    simp [derive_filename, h]
  · intro h
    simp [derive_filename, h]

/-- C5 witness: the general prefixing equations applied at a concrete title
and URL. -/
theorem c5_date_prefixing_witness :
    derive_filename "T" "https://s/2024/03/07/p.html"
      = "2024-03-07" ++ "_" ++ filename_no_date "T" "https://s/2024/03/07/p.html" :=
  (c5_date_prefixing.2.2.2 "T" "https://s/2024/03/07/p.html" "2024-03-07").1 (by decide)

/-- C6: get_blog_title tries the first h1, then the title element, then the
first h2, then the first h3, each used only when every earlier candidate is
absent, and falls back to "untitled" when all four are absent. -/
theorem c6_title_priority (soup : Soup) :
    (∀ t, soup.h1 = some t → get_blog_title soup = pyStrip t) ∧
    (soup.h1 = none → ∀ t, soup.title = some t → get_blog_title soup = pyStrip t) ∧
    (soup.h1 = none → soup.title = none → ∀ t, soup.h2 = some t →
      get_blog_title soup = pyStrip t) ∧
    (soup.h1 = none → soup.title = none → soup.h2 = none → ∀ t, soup.h3 = some t →
      get_blog_title soup = pyStrip t) ∧
    (soup.h1 = none → soup.title = none → soup.h2 = none → soup.h3 = none →
      get_blog_title soup = "untitled") :=
  ⟨fun t h => by simp [get_blog_title, h],
   fun ha t h => by simp [get_blog_title, ha, h],
   fun ha hb t h => by simp [get_blog_title, ha, hb, h],
   fun ha hb hc t h => by simp [get_blog_title, ha, hb, hc, h],
   fun ha hb hc hd => by simp [get_blog_title, ha, hb, hc, hd]⟩

/-- C6 witness: the priority equations applied at concrete documents. -/
theorem c6_title_priority_witness :
    get_blog_title ⟨some " My Title ", some "Doc", none, none⟩ = pyStrip " My Title " ∧
    get_blog_title ⟨none, none, none, none⟩ = "untitled" :=
  ⟨(c6_title_priority ⟨some " My Title ", some "Doc", none, none⟩).1 " My Title " rfl,
   (c6_title_priority ⟨none, none, none, none⟩).2.2.2.2 rfl rfl rfl rfl⟩

/-- C8: the sequence returned by Link Discovery is strictly sorted in
lexicographic string order and has no duplicates, and re-running discovery
on the same page yields the identical sequence. -/
theorem c8_discovery_result (base_url : String) (hrefs : List String) :
    (get_blog_posts base_url hrefs).Pairwise
        (fun a b => List.Lex (· < ·) a.toList b.toList) ∧
    (get_blog_posts base_url hrefs).Nodup ∧
    get_blog_posts base_url hrefs = get_blog_posts base_url hrefs := by
  refine ⟨?_, nodup_sortDedup _, rfl⟩
  exact (pairwise_sortDedup _).imp (fun h => lexLt_iff_lex.mp h)

/-- C10: when the sanitized title is empty the fallback filename from the
URL path is used verbatim, neither sanitized nor truncated: for the title
"???" the URL "https://site/a:b*c.html" yields the base name "a:b*c.html",
which contains the forbidden character of the colon, and a URL with a
210-character path segment yields a base name longer than 200 characters. -/
theorem c10_fallback_unsanitized :
    sanitize_filename "???" = "" ∧
    derive_filename "???" "https://site/a:b*c.html" = "a:b*c.html" ∧
    invalid_char ':' = true ∧
    ':' ∈ (derive_filename "???" "https://site/a:b*c.html").toList ∧
    200 < (derive_filename "???"
        ("https://site/" ++ String.mk (List.replicate 210 'a') ++ ".html")).length :=
  ⟨by decide, by decide, by decide, by decide, by decide⟩

/-- C2: when the computed PDF path already exists, the converter returns
the existing outcome, invokes no renderer, writes nothing and appends no
failure; in general one call writes at most one file and never writes to a
PDF path that already exists. -/
theorem c2_skip_existing (env : ConvEnv) (url output_dir : String) (soup : Soup)
    (response_text : String) (fs : List String) :
    (conv_pdf_path output_dir url soup ∈ fs →
      download_and_convert_to_pdf env url output_dir soup response_text fs
        = ⟨ConvResult.existing, [], [], false⟩) ∧
    (download_and_convert_to_pdf env url output_dir soup response_text fs).written.length ≤ 1 ∧
    (∀ content, conv_pdf_path output_dir url soup ∈ fs →
      (conv_pdf_path output_dir url soup, content)
        ∉ (download_and_convert_to_pdf env url output_dir soup response_text fs).written) := by
  refine ⟨?_, ?_, ?_⟩
  · intro h
    unfold download_and_convert_to_pdf
    rw [if_pos h]
  · unfold download_and_convert_to_pdf
    by_cases h1 : conv_pdf_path output_dir url soup ∈ fs
    · simp [h1]
    · by_cases h2 : env.weasyprint_available = true <;>
        by_cases h3 : env.render_ok = true <;>
          by_cases h4 : env.backup_ok = true <;>
            simp [h1, h2, h3, h4]
  · intro content h
    unfold download_and_convert_to_pdf
    rw [if_pos h]
    simp

/-- C2 witness: the skip branch taken at a concrete post whose PDF is
already on disk. -/
theorem c2_skip_existing_witness :
    download_and_convert_to_pdf ⟨true, true, "err", true, "cleaned"⟩ "https://site/p.html"
        "blogs" ⟨some "T", none, none, none⟩ "body" ["blogs/T.pdf"]
      = ⟨ConvResult.existing, [], [], false⟩ :=
  (c2_skip_existing ⟨true, true, "err", true, "cleaned"⟩ "https://site/p.html" "blogs"
    ⟨some "T", none, none, none⟩ "body" ["blogs/T.pdf"]).1 (by decide)

/-- C3: a raised exception in one iteration of the orchestrator loop adds
exactly one to error_count, appends exactly the pair of that URL and the
message to the failure list, and leaves the contributions of every earlier
and later URL intact. -/
theorem c3_failure_isolation (pre : List (String × PostStep)) (url msg : String)
    (rest : List (String × PostStep)) :
    (main_loop (pre ++ (url, PostStep.raised msg) :: rest)).error_count
        = (main_loop pre).error_count + 1 + (main_loop rest).error_count ∧
    (main_loop (pre ++ (url, PostStep.raised msg) :: rest)).new_count
        = (main_loop pre).new_count + (main_loop rest).new_count ∧
    (main_loop (pre ++ (url, PostStep.raised msg) :: rest)).existing_count
        = (main_loop pre).existing_count + (main_loop rest).existing_count ∧
    (main_loop (pre ++ (url, PostStep.raised msg) :: rest)).failed_urls
        = (main_loop pre).failed_urls ++ (url, msg) :: (main_loop rest).failed_urls ∧
    (url, msg) ∈ (main_loop (pre ++ (url, PostStep.raised msg) :: rest)).failed_urls := by
  unfold main_loop
  rw [main_loop_char (pre ++ (url, PostStep.raised msg) :: rest) init_tally,
    main_loop_char pre init_tally, main_loop_char rest init_tally]
  simp only [init_tally, List.map_append, List.map_cons, List.sum_append, List.sum_cons,
    List.flatten_append, List.flatten_cons, itemNew, itemExisting, itemErr, itemFailures,
    List.nil_append]
  refine ⟨by omega, by omega, by omega, by simp, by simp⟩

/-- C9: over any run in which every returned effect comes from the
converter, new_count plus existing_count plus error_count equals the number
of URLs processed, and error_count equals the length of the failure list;
this holds for every prefix of the loop since a prefix is itself such a
run. -/
theorem c9_tally_invariant (items : List (String × PostStep))
    (h : ∀ url eff, (url, PostStep.returned eff) ∈ items →
      ∃ env output_dir soup response_text fs,
        eff = download_and_convert_to_pdf env url output_dir soup response_text fs) :
    (main_loop items).new_count + (main_loop items).existing_count
        + (main_loop items).error_count = items.length ∧
    (main_loop items).error_count = (main_loop items).failed_urls.length := by
  unfold main_loop
  rw [main_loop_char items init_tally]
  simp only [init_tally, Nat.zero_add, List.nil_append]
  refine ⟨sum_counts items, ?_⟩
  rw [List.length_flatten, List.map_map]
  refine congrArg List.sum (List.map_congr_left ?_)
  intro i hi
  obtain ⟨u, s⟩ := i
  cases s with
  | raised msg => rfl
  | returned eff => exact conv_item_err u eff (h u eff hi)

/-- C9 witness: the invariant at a concrete two-post run with one raised
fetch failure and one converter return. -/
theorem c9_tally_invariant_witness :
    (main_loop [("u1", PostStep.raised "boom"),
        ("u2", PostStep.returned (download_and_convert_to_pdf ⟨true, true, "", true, "ch"⟩
          "u2" "blogs" ⟨some "T", none, none, none⟩ "body" []))]).error_count
      = (main_loop [("u1", PostStep.raised "boom"),
        ("u2", PostStep.returned (download_and_convert_to_pdf ⟨true, true, "", true, "ch"⟩
          "u2" "blogs" ⟨some "T", none, none, none⟩ "body" []))]).failed_urls.length := by
  refine (c9_tally_invariant _ ?_).2
  intro url eff hmem
  simp only [List.mem_cons, List.mem_singleton, Prod.mk.injEq] at hmem
  rcases hmem with ⟨_, heq⟩ | ⟨hurl, heq⟩ | hfalse
  · exact absurd heq (by simp)
  · subst hurl
    exact ⟨⟨true, true, "", true, "ch"⟩, "blogs", ⟨some "T", none, none, none⟩, "body", [],
      PostStep.returned.inj heq⟩
  · exact absurd hfalse (by simp)

/-- C7: when rendering fails the converter records exactly the pair of the
URL and the error message, and the best-effort backup, when its write
succeeds, contains the original fetched text and not the cleaned markup; a
failing backup write leaves no file and the outcome is the error outcome
either way. -/
theorem c7_html_backup (env : ConvEnv) (url output_dir : String) (soup : Soup)
    (response_text : String) (fs : List String)
    (hmem : conv_pdf_path output_dir url soup ∉ fs)
    (hav : env.weasyprint_available = true)
    (hrender : env.render_ok = false) :
    (download_and_convert_to_pdf env url output_dir soup response_text fs).result
        = ConvResult.error ∧
    (download_and_convert_to_pdf env url output_dir soup response_text fs).failures
        = [(url, env.render_err)] ∧
    (env.backup_ok = true →
      (download_and_convert_to_pdf env url output_dir soup response_text fs).written
        = [(conv_html_path output_dir url soup, FileContent.html response_text)]) ∧
    (env.backup_ok = false →
      (download_and_convert_to_pdf env url output_dir soup response_text fs).written = []) ∧
    (∀ p s, (p, FileContent.html s)
        ∈ (download_and_convert_to_pdf env url output_dir soup response_text fs).written →
      s = response_text) ∧
    (env.cleaned_html ≠ response_text →
      ∀ p, (p, FileContent.html env.cleaned_html)
          ∉ (download_and_convert_to_pdf env url output_dir soup response_text fs).written) := by
  have hd : download_and_convert_to_pdf env url output_dir soup response_text fs
      = ⟨ConvResult.error,
          if env.backup_ok then
            [(conv_html_path output_dir url soup, FileContent.html response_text)]
          else [],
          [(url, env.render_err)], true⟩ := by
    unfold download_and_convert_to_pdf
    rw [if_neg hmem, hav, hrender]
    simp
  rw [hd]
  refine ⟨rfl, rfl, ?_, ?_, ?_, ?_⟩
  · intro hb
    simp [hb]
  · intro hb
    simp [hb]
  · intro p s hps
    cases hbv : env.backup_ok with
    | false => simp [hbv] at hps
    | true =>
      simp [hbv] at hps
      exact hps.2
  · intro hne p hp
    cases hbv : env.backup_ok with
    | false => simp [hbv] at hp
    | true =>
      simp [hbv] at hp
      exact hne hp.2

/-- C7 witness: the backup path at a concrete failing render with the
cleaned markup different from the fetched text. -/
theorem c7_html_backup_witness :
    (download_and_convert_to_pdf ⟨true, false, "render failed", true, "cleaned"⟩
        "https://site/p.html" "blogs" ⟨some "T", none, none, none⟩ "original" []).written
      = [(conv_html_path "blogs" "https://site/p.html" ⟨some "T", none, none, none⟩,
          FileContent.html "original")] :=
  (c7_html_backup ⟨true, false, "render failed", true, "cleaned"⟩ "https://site/p.html" "blogs"
    ⟨some "T", none, none, none⟩ "original" [] (by decide) (by decide) (by decide)).2.2.1 rfl

end Blogs
